import Mathlib

/-!
Verification development for the PET-CR / bgcr-budyko repository core.

The Python source is embedded shallowly over the real numbers: numpy
elementwise arithmetic becomes real arithmetic, `np.power` with a real
exponent becomes `Real.rpow`, `np.arcsin`, `np.sin`, `np.sqrt` become the
corresponding real functions, and `raise ValueError` becomes an
`Except.error` result.  Array broadcasting is elementwise, so scalar
statements capture the per-cell behaviour.

Namespace `bgcr_budyko` embeds the package `bgcr-budyko`
(`bgcr_budyko/utils/maths.py`, `models/bgcr.py`, `models/penman.py`,
`params/w_schemes.py`, `io/io_helpers.py`); namespace `petcr` embeds the
independent copy in `petcr/bgcr_model.py`.
-/

noncomputable section

namespace bgcr_budyko

/-- Embeds `clamp(x, lo=None, hi=None)` from `bgcr_budyko/utils/maths.py`:
`np.maximum` with `lo` when given, then `np.minimum` with `hi` when given. -/
def clamp (x : ℝ) (lo hi : Option ℝ) : ℝ :=
  let x1 := match lo with
    | some l => max x l
    | none => x
  match hi with
    | some h => min x1 h
    | none => x1

/-- Embeds `np.clip(x, lo, hi)` as used inside `cubic_root_trig`. -/
def clip (x lo hi : ℝ) : ℝ := min (max x lo) hi

/-- Embeds `safe_div(a, b, eps=1e-12)` from `bgcr_budyko/utils/maths.py`:
`a / (b + eps)`.  The `eps` default `1e-12` is passed explicitly at every
call site of this embedding, matching the Python default. -/
def safe_div (a b eps : ℝ) : ℝ := a / (b + eps)

/-- Embeds `cubic_root_trig(z)` from `bgcr_budyko/utils/maths.py`:
the trigonometric formula the source applies to `x^3 - 2x^2 + z = 0`,
with the `np.clip` guard on the arcsine argument and the final clamp of
the result to `[0, 2]`. -/
def cubic_root_trig (z : ℝ) : ℝ :=
  let p : ℝ := -4 / 3
  let q : ℝ := -16 / 27 + z
  let tmp := 3 * Real.sqrt 3 / 2 * q / (-p) ^ (1.5 : ℝ)
  let tmp2 := clip tmp (-1) 1
  let theta := 1 / 3 * Real.arcsin tmp2
  let x := 2 / Real.sqrt 3 * Real.sin theta + 2 / 3
  clamp x (some 0) (some 2)

/-- Embeds `budyko_tixeront_fu_ratio(P, Epa, w)` from
`bgcr_budyko/models/bgcr.py`: `y = 1 + Phi - (1 + Phi^w)^(1/w)` with
`Phi = safe_div(P, Epa)`, clamped to `[0, 1]`. -/
def budyko_tixeront_fu_ratio (P Epa w : ℝ) : ℝ :=
  let Phi := safe_div P Epa 1e-12
  let term := (1 + Phi ^ w) ^ (1 / w)
  let y := 1 + Phi - term
  clamp y (some 0) (some 1)

/-- Embeds `_beta_c_from_cubic(P, Epa, Erad, w)` from
`bgcr_budyko/models/bgcr.py`: the unclamped residual `z` feeds the cubic
solver; returns `(beta_c, x)`. -/
def beta_c_from_cubic (P Epa Erad w : ℝ) : ℝ × ℝ :=
  let Phi := safe_div P Epa 1e-12
  let z := 1 + Phi - (1 + Phi ^ w) ^ (1 / w)
  let x := cubic_root_trig z
  let beta_c := safe_div Epa Erad 1e-12 * x
  (beta_c, x)

/-- The diagnostics dict `{"beta_c": ..., "x": ..., "ratio": ...}`
returned by `bgcr_monthly`. -/
structure Diag where
  beta_c : ℝ
  x : ℝ
  ratio : ℝ

/-- Embeds `bgcr_monthly(P, Epa, Erad, w)` from
`bgcr_budyko/models/bgcr.py`: computes `(beta_c, x)` via the cubic,
the clamped Budyko ratio `y`, and `E = y * Epa`. -/
def bgcr_monthly (P Epa Erad w : ℝ) : ℝ × Diag :=
  let bc := beta_c_from_cubic P Epa Erad w
  let y := budyko_tixeront_fu_ratio P Epa w
  let E := y * Epa
  (E, ⟨bc.1, bc.2, y⟩)

/-- The exact expression `z = 1 + Phi - (1 + Phi^w)^(1/w)` (with
`Phi = safe_div(P, Epa)`) that `_beta_c_from_cubic` passes to
`cubic_root_trig` — named separately so theorems can refer to the
cubic's input. -/
def cubic_z (P Epa w : ℝ) : ℝ :=
  1 + safe_div P Epa 1e-12 -
    (1 + (safe_div P Epa 1e-12) ^ w) ^ (1 / w)

/-- Embeds `w_from_SI(SI)` from `bgcr_budyko/params/w_schemes.py`:
`0.214 - 0.651*SI + 7.350*np.square(SI)`. -/
def w_from_SI (SI : ℝ) : ℝ := 0.214 - 0.651 * SI + 7.350 * (SI * SI)

/-- Embeds `w_from_SI_albedo(SI, ALB)` from
`bgcr_budyko/params/w_schemes.py`, with the `np.clip` of albedo to
`[1e-3, 1]`. -/
def w_from_SI_albedo (SI ALB : ℝ) : ℝ :=
  let A := clip ALB 1e-3 1
  0.5931 + 7.0871 * SI ^ 3 + 0.0175 / (A * A)

/-- Embeds `slope_svpc(T)` from `bgcr_budyko/models/penman.py`:
Tetens-derivative slope of the saturation vapor pressure curve. -/
def slope_svpc (T : ℝ) : ℝ :=
  let es := 0.6108 * Real.exp (17.27 * T / (T + 237.3))
  4098 * es / (T + 237.3) ^ 2

/-- Embeds `penman_components(Rn, G, T, U2, ea, es, gamma=0.066,
Le=2.45e6)` from `bgcr_budyko/models/penman.py`.  Note the source body
divides by the literal `2.45e6` (the `Le` parameter is accepted but
unused), which this embedding reproduces faithfully. -/
def penman_components (Rn G T U2 ea es gamma Le : ℝ) : ℝ × ℝ :=
  let Delta := slope_svpc T
  let fU := 2.6 * (1 + 0.54 * U2)
  let Qne := (Rn - G) / 2.45e6
  let Erad := Delta / (Delta + gamma) * Qne
  let Eaero := gamma / (Delta + gamma) * fU * (es - ea)
  (Erad, Eaero)

/-- Embeds `epa_from_penman(Rn, G, T, U2, ea, es)` from
`bgcr_budyko/models/penman.py`: calls `penman_components` with the
default `gamma` and `Le` and returns `(Erad + Eaero, Erad, Eaero)`. -/
def epa_from_penman (Rn G T U2 ea es : ℝ) : ℝ × ℝ × ℝ :=
  let r := penman_components Rn G T U2 ea es 0.066 2.45e6
  (r.1 + r.2, r.1, r.2)

/-- Embeds `seasonal_index(P_monthly)` from
`bgcr_budyko/io/io_helpers.py` on a `(years, months)` array, months
generic so the shape check is meaningful.  A month axis of length other
than 12 raises `ValueError`, embedded as `Except.error`; otherwise the
per-year seasonality `SI_year` (zero when the annual total is not
positive, via `np.where`) is averaged over the year axis (`np.mean`,
i.e. sum divided by the number of years). -/
def seasonal_index (nY nM : ℕ) (P : Fin nY → Fin nM → ℝ) : Except String ℝ :=
  if nM ≠ 12 then
    Except.error "month axis must be length 12 (years, 12, ...)"
  else
    let P_annual : Fin nY → ℝ := fun y => ∑ m, P y m
    let P_mean_month : Fin nY → ℝ := fun y => P_annual y / 12
    let SI_year : Fin nY → ℝ := fun y =>
      if P_annual y > 0 then (∑ m, |P y m - P_mean_month y|) / P_annual y
      else 0
    Except.ok ((∑ y, SI_year y) / (nY : ℝ))

end bgcr_budyko

namespace petcr

/-- Embeds `_clamp(x, lo=None, hi=None)` from `petcr/bgcr_model.py`
(the Python name carries a leading underscore). -/
def clamp (x : ℝ) (lo hi : Option ℝ) : ℝ :=
  let x1 := match lo with
    | some l => max x l
    | none => x
  match hi with
    | some h => min x1 h
    | none => x1

/-- Embeds `_safe_div(a, b, eps=1e-12)` from `petcr/bgcr_model.py`. -/
def safe_div (a b eps : ℝ) : ℝ := a / (b + eps)

/-- Embeds `_cubic_root_trig(z)` from `petcr/bgcr_model.py`. -/
def cubic_root_trig (z : ℝ) : ℝ :=
  let p : ℝ := -4 / 3
  let q : ℝ := -16 / 27 + z
  let tmp := 3 * Real.sqrt 3 / 2 * q / (-p) ^ (1.5 : ℝ)
  let tmp2 := min (max tmp (-1)) 1
  let theta := 1 / 3 * Real.arcsin tmp2
  let x := 2 / Real.sqrt 3 * Real.sin theta + 2 / 3
  clamp x (some 0) (some 2)

/-- Embeds `_budyko_tixeront_fu_ratio(precipitation, epa, w)` from
`petcr/bgcr_model.py`. -/
def budyko_tixeront_fu_ratio (precipitation epa w : ℝ) : ℝ :=
  let Phi := safe_div precipitation epa 1e-12
  let term := (1 + Phi ^ w) ^ (1 / w)
  let y := 1 + Phi - term
  clamp y (some 0) (some 1)

/-- The diagnostics dict returned by `petcr`'s `bgcr_monthly`. -/
structure Diagnostics where
  beta_c : ℝ
  x : ℝ
  ratio : ℝ

/-- Embeds `bgcr_monthly(precipitation, epa, erad, w)` from
`petcr/bgcr_model.py`: `Phi`, `z`, `x`, `beta_c` are computed inline,
then the clamped Budyko ratio `y` and `E = y * epa`. -/
def bgcr_monthly (precipitation epa erad w : ℝ) : ℝ × Diagnostics :=
  let Phi := safe_div precipitation epa 1e-12
  let z := 1 + Phi - (1 + Phi ^ w) ^ (1 / w)
  let x := cubic_root_trig z
  let beta_c := safe_div epa erad 1e-12 * x
  let y := budyko_tixeront_fu_ratio precipitation epa w
  let E := y * epa
  (E, ⟨beta_c, x, y⟩)

end petcr

namespace bgcr_budyko

/-- Unfolding lemma: `clamp` with both bounds present is `min (max x lo) hi`. -/
theorem clamp_some (x lo hi : ℝ) : clamp x (some lo) (some hi) = min (max x lo) hi := rfl

/-- Unfolding lemma: the returned Budyko ratio is the clamped residual. -/
theorem ratio_eq_clamp (P Epa w : ℝ) :
    budyko_tixeront_fu_ratio P Epa w = min (max (cubic_z P Epa w) 0) 1 := rfl

/-- The Budyko ratio is always in the unit interval. -/
theorem ratio_mem_unit (P Epa w : ℝ) :
    0 ≤ budyko_tixeront_fu_ratio P Epa w ∧ budyko_tixeront_fu_ratio P Epa w ≤ 1 := by
  rw [ratio_eq_clamp]
  exact ⟨le_min (le_max_right _ _) zero_le_one, min_le_right _ _⟩

end bgcr_budyko

open bgcr_budyko in
/-- C2: for non-negative `P`, `Epa`, `Erad` and positive `w`,
`bgcr_monthly` returns a diagnostic ratio `y ∈ [0, 1]` and an output
`E = y * Epa` with `0 ≤ E ≤ Epa`. -/
theorem C2_bgcr_monthly_bounds (P Epa Erad w : ℝ)
    (hP : 0 ≤ P) (hEpa : 0 ≤ Epa) (hErad : 0 ≤ Erad) (hw : 0 < w) :
    0 ≤ (bgcr_monthly P Epa Erad w).2.ratio ∧
    (bgcr_monthly P Epa Erad w).2.ratio ≤ 1 ∧
    (bgcr_monthly P Epa Erad w).1 = (bgcr_monthly P Epa Erad w).2.ratio * Epa ∧
    0 ≤ (bgcr_monthly P Epa Erad w).1 ∧
    (bgcr_monthly P Epa Erad w).1 ≤ Epa := by
  have hy := ratio_mem_unit P Epa w
  have hrat : (bgcr_monthly P Epa Erad w).2.ratio = budyko_tixeront_fu_ratio P Epa w := rfl
  have hE : (bgcr_monthly P Epa Erad w).1 = budyko_tixeront_fu_ratio P Epa w * Epa := rfl
  refine ⟨by rw [hrat]; exact hy.1, by rw [hrat]; exact hy.2, by rw [hE, hrat], ?_, ?_⟩
  · rw [hE]; exact mul_nonneg hy.1 hEpa
  · rw [hE]
    calc budyko_tixeront_fu_ratio P Epa w * Epa ≤ 1 * Epa :=
          mul_le_mul_of_nonneg_right hy.2 hEpa
    _ = Epa := one_mul Epa

/-- Witness for C2 at `P = 1`, `Epa = 2`, `Erad = 1`, `w = 2`. -/
theorem C2_bgcr_monthly_bounds_witness :
    0 ≤ (bgcr_budyko.bgcr_monthly 1 2 1 2).2.ratio ∧
    (bgcr_budyko.bgcr_monthly 1 2 1 2).2.ratio ≤ 1 ∧
    (bgcr_budyko.bgcr_monthly 1 2 1 2).1 =
      (bgcr_budyko.bgcr_monthly 1 2 1 2).2.ratio * 2 ∧
    0 ≤ (bgcr_budyko.bgcr_monthly 1 2 1 2).1 ∧
    (bgcr_budyko.bgcr_monthly 1 2 1 2).1 ≤ 2 :=
  C2_bgcr_monthly_bounds 1 2 1 2 (by norm_num) (by norm_num) (by norm_num) (by norm_num)

open bgcr_budyko in
/-- C3: with zero precipitation and positive `Epa`, `Erad`, `w`, the
evaporation returned by `bgcr_monthly` is exactly zero. -/
theorem C3_bgcr_monthly_zero_precip (Epa Erad w : ℝ)
    (hEpa : 0 < Epa) (hErad : 0 < Erad) (hw : 0 < w) :
    (bgcr_monthly 0 Epa Erad w).1 = 0 := by
  have hE : (bgcr_monthly 0 Epa Erad w).1 = budyko_tixeront_fu_ratio 0 Epa w * Epa := rfl
  have hz : cubic_z 0 Epa w = 0 := by
    simp [cubic_z, safe_div, Real.zero_rpow hw.ne', Real.one_rpow]
  rw [hE, ratio_eq_clamp, hz]
  norm_num

/-- Witness for C3 at `Epa = 1`, `Erad = 1`, `w = 2`. -/
theorem C3_bgcr_monthly_zero_precip_witness :
    (bgcr_budyko.bgcr_monthly 0 1 1 2).1 = 0 :=
  C3_bgcr_monthly_zero_precip 1 1 2 (by norm_num) (by norm_num) (by norm_num)

open bgcr_budyko in
/-- C5: the coefficient fed to `cubic_root_trig` inside the solver is the
unclamped residual `cubic_z`, and the returned diagnostic ratio is the
same residual clamped to `[0, 1]`. -/
theorem C5_unclamped_cubic_clamped_ratio (P Epa Erad w : ℝ) :
    (beta_c_from_cubic P Epa Erad w).2 = cubic_root_trig (cubic_z P Epa w) ∧
    (bgcr_monthly P Epa Erad w).2.ratio = clamp (cubic_z P Epa w) (some 0) (some 1) :=
  ⟨rfl, rfl⟩

open bgcr_budyko in
/-- C6: with `Epa = 0` the divisions are all epsilon-guarded (total in
this embedding) and the returned evaporation is exactly zero, hence
finite and no greater than `Epa`. -/
theorem C6_bgcr_monthly_zero_epa (P Erad w : ℝ)
    (hP : 0 ≤ P) (hErad : 0 < Erad) (hw : 0 < w) :
    (bgcr_monthly P 0 Erad w).1 = 0 := by
  have hE : (bgcr_monthly P 0 Erad w).1 = budyko_tixeront_fu_ratio P 0 w * 0 := rfl
  rw [hE, mul_zero]

/-- Witness for C6 at `P = 5`, `Erad = 1`, `w = 2`. -/
theorem C6_bgcr_monthly_zero_epa_witness :
    (bgcr_budyko.bgcr_monthly 5 0 1 2).1 = 0 :=
  C6_bgcr_monthly_zero_epa 5 1 2 (by norm_num) (by norm_num) (by norm_num)

open bgcr_budyko in
/-- C8: the sum of the two components returned by `penman_components`
(at the default `gamma` and `Le` used by the combined call) equals
exactly the apparent potential evaporation returned by
`epa_from_penman`. -/
theorem C8_penman_additivity (Rn G T U2 ea es : ℝ) :
    (epa_from_penman Rn G T U2 ea es).1 =
      (penman_components Rn G T U2 ea es 0.066 2.45e6).1 +
      (penman_components Rn G T U2 ea es 0.066 2.45e6).2 := rfl

open bgcr_budyko in
/-- C9: `w_from_SI` computes exactly the quadratic
`0.214 - 0.651*SI + 7.350*SI^2`, and on `SI ∈ [0, 1]` (indeed for every
real `SI`) the result is strictly positive. -/
theorem C9_w_from_SI_quadratic_pos (SI : ℝ) :
    w_from_SI SI = 0.214 - 0.651 * SI + 7.350 * SI ^ 2 ∧
    (0 ≤ SI → SI ≤ 1 → 0 < w_from_SI SI) := by
  constructor
  · unfold w_from_SI; ring
  · intro h0 h1
    unfold w_from_SI
    nlinarith [sq_nonneg (14.7 * SI - 0.651)]

/-- Witness for C9 at `SI = 1/2`. -/
theorem C9_w_from_SI_quadratic_pos_witness : 0 < bgcr_budyko.w_from_SI (1 / 2) :=
  (C9_w_from_SI_quadratic_pos (1 / 2)).2 (by norm_num) (by norm_num)

/-- C10: the two independent implementations of the BGCR monthly solver
(`bgcr_budyko.models.bgcr.bgcr_monthly` and `petcr.bgcr_model.bgcr_monthly`)
agree on every input: same `E`, same `beta_c`, same `x`, same ratio. -/
theorem C10_petcr_bgcr_budyko_equiv (P Epa Erad w : ℝ) :
    (petcr.bgcr_monthly P Epa Erad w).1 = (bgcr_budyko.bgcr_monthly P Epa Erad w).1 ∧
    (petcr.bgcr_monthly P Epa Erad w).2.beta_c =
      (bgcr_budyko.bgcr_monthly P Epa Erad w).2.beta_c ∧
    (petcr.bgcr_monthly P Epa Erad w).2.x = (bgcr_budyko.bgcr_monthly P Epa Erad w).2.x ∧
    (petcr.bgcr_monthly P Epa Erad w).2.ratio =
      (bgcr_budyko.bgcr_monthly P Epa Erad w).2.ratio :=
  ⟨rfl, rfl, rfl, rfl⟩

namespace bgcr_budyko

/-- Numerical bound used below. -/
theorem sqrt_three_lt : Real.sqrt 3 < 1.74 :=
  (Real.sqrt_lt' (by norm_num)).mpr (by norm_num)

/-- Numerical bound used below. -/
theorem lt_sqrt_three : 1.7 < Real.sqrt 3 :=
  (Real.lt_sqrt (by norm_num)).mpr (by norm_num)

/-- The power `(-p)^1.5 = (4/3)^1.5` evaluates to `√3 * (8/9)`. -/
theorem rpow_four_thirds : ((4 : ℝ) / 3) ^ (1.5 : ℝ) = Real.sqrt 3 * (8 / 9) := by
  rw [show (1.5 : ℝ) = ((3 : ℕ) : ℝ) * (1 / 2) by norm_num,
    Real.rpow_mul (by norm_num : (0 : ℝ) ≤ 4 / 3), Real.rpow_natCast,
    ← Real.sqrt_eq_rpow,
    show ((4 : ℝ) / 3) ^ (3 : ℕ) = 3 * (8 / 9) ^ 2 by norm_num,
    Real.sqrt_mul (by norm_num : (0 : ℝ) ≤ 3),
    Real.sqrt_sq (by norm_num : (0 : ℝ) ≤ 8 / 9)]

/-- Rewriting `cubic_root_trig` with the negation of `p` evaluated. -/
theorem cubic_root_trig_eq (z : ℝ) :
    cubic_root_trig z =
      clamp (2 / Real.sqrt 3 *
        Real.sin (1 / 3 * Real.arcsin
          (clip (3 * Real.sqrt 3 / 2 * (-16 / 27 + z) / ((4 : ℝ) / 3) ^ (1.5 : ℝ))
            (-1) 1)) + 2 / 3)
        (some 0) (some 2) := by
  simp only [cubic_root_trig]
  norm_num

/-- At `z = 0` the arcsine argument is exactly `-1` and the formula
returns `(2 - √3)/3 ≈ 0.0893` (not the true root `0`). -/
theorem cubic_root_trig_zero : cubic_root_trig 0 = (2 - Real.sqrt 3) / 3 := by
  have hs3 : (0 : ℝ) < Real.sqrt 3 := Real.sqrt_pos.mpr (by norm_num)
  have h3 : Real.sqrt 3 * Real.sqrt 3 = 3 := Real.mul_self_sqrt (by norm_num)
  rw [cubic_root_trig_eq, rpow_four_thirds]
  have htmp : 3 * Real.sqrt 3 / 2 * (-16 / 27 + 0) / (Real.sqrt 3 * (8 / 9)) = -1 := by
    rw [div_eq_iff (by positivity)]
    nlinarith [h3]
  rw [htmp, show clip (-1 : ℝ) (-1) 1 = -1 by simp [clip], Real.arcsin_neg_one,
    show (1 / 3 : ℝ) * -(Real.pi / 2) = -(Real.pi / 6) by ring,
    Real.sin_neg, Real.sin_pi_div_six]
  have hx : 2 / Real.sqrt 3 * -(1 / 2) + 2 / 3 = (2 - Real.sqrt 3) / 3 := by
    have hne : Real.sqrt 3 ≠ 0 := ne_of_gt hs3
    field_simp
    nlinarith [h3]
  rw [hx, clamp_some]
  have h0 : (0 : ℝ) ≤ (2 - Real.sqrt 3) / 3 := by nlinarith [sqrt_three_lt]
  have h2 : (2 - Real.sqrt 3) / 3 ≤ 2 := by nlinarith [hs3]
  rw [max_eq_left h0, min_eq_left h2]

/-- The residual `z = 0` does arise inside the solver from the valid
combination `P = 0`, `Epa = 1`, `w = 2`. -/
theorem cubic_z_zero : cubic_z 0 1 2 = 0 := by
  have h0 : safe_div (0 : ℝ) 1 1e-12 = 0 := zero_div _
  rw [cubic_z, h0, Real.zero_rpow (by norm_num : (2 : ℝ) ≠ 0)]
  rw [show (1 : ℝ) + 0 = 1 by norm_num, Real.one_rpow]
  norm_num

end bgcr_budyko

open bgcr_budyko in
/-- C1 (code bug): the residual `z = 0` arises from the valid
combination `(P, Epa, w) = (0, 1, 2)`, yet `cubic_root_trig 0` returns
`(2 - √3)/3 ≈ 0.0893` whose cubic residual `|x³ - 2x² + z|` exceeds
`10⁻⁶` by four orders of magnitude (the true physical root is `0`);
hence the solver does not satisfy `x³ - 2x² + z ≈ 0`. -/
theorem C1_cubic_root_trig_misses_root :
    cubic_z 0 1 2 = 0 ∧
    cubic_root_trig 0 = (2 - Real.sqrt 3) / 3 ∧
    1e-6 < |cubic_root_trig 0 ^ 3 - 2 * cubic_root_trig 0 ^ 2 + 0| := by
  have h3 : Real.sqrt 3 ^ 2 = 3 := Real.sq_sqrt (by norm_num)
  refine ⟨cubic_z_zero, cubic_root_trig_zero, ?_⟩
  rw [cubic_root_trig_zero]
  have hval : ((2 - Real.sqrt 3) / 3) ^ 3 - 2 * ((2 - Real.sqrt 3) / 3) ^ 2 + 0 =
      (9 * Real.sqrt 3 - 16) / 27 := by
    linear_combination (-Real.sqrt 3 / 27) * h3
  rw [hval, abs_of_neg (by nlinarith [sqrt_three_lt])]
  nlinarith [sqrt_three_lt]

open bgcr_budyko in
/-- C4 (code bug): at `P = 0`, `Epa = 1`, `Erad = 1`, `w = 2` the cubic
coefficient is exactly `0`, but the diagnostic `x` returned by
`bgcr_monthly` is `(2 - √3)/3 ≈ 0.0893`, bounded away from `0` (greater
than `1/100`), so `x` is not approximately `0`. -/
theorem C4_zero_precip_x_not_zero :
    cubic_z 0 1 2 = 0 ∧
    (bgcr_monthly 0 1 1 2).2.x = (2 - Real.sqrt 3) / 3 ∧
    1 / 100 < (bgcr_monthly 0 1 1 2).2.x := by
  have hx : (bgcr_monthly 0 1 1 2).2.x = cubic_root_trig (cubic_z 0 1 2) := rfl
  refine ⟨cubic_z_zero, ?_, ?_⟩
  · rw [hx, cubic_z_zero, cubic_root_trig_zero]
  · rw [hx, cubic_z_zero, cubic_root_trig_zero]
    nlinarith [sqrt_three_lt]

open bgcr_budyko in
/-- C7: `seasonal_index` fails fast (with the source's `ValueError`
message) whenever the month axis is not of length 12; on a well-shaped
input it returns the mean over years of `SI_year`, where `SI_year` is
the sum of monthly absolute deviations from the uniform share
`P_annual/12` divided by `P_annual`, and is `0` for a year whose annual
total is not positive. -/
theorem C7_seasonal_index_spec :
    (∀ (nY nM : ℕ) (P : Fin nY → Fin nM → ℝ), nM ≠ 12 →
      seasonal_index nY nM P =
        Except.error "month axis must be length 12 (years, 12, ...)") ∧
    (∀ (nY : ℕ) (P : Fin nY → Fin 12 → ℝ),
      seasonal_index nY 12 P =
        Except.ok ((∑ y, (if (∑ m, P y m) > 0 then
            (∑ m, |P y m - (∑ m2, P y m2) / 12|) / (∑ m, P y m)
          else 0)) / (nY : ℝ))) := by
  constructor
  · intro nY nM P h
    simp only [seasonal_index, if_pos h]
  · intro nY P
    simp only [seasonal_index]
    norm_num

/-- Witness for C7: a `(1, 6)`-shaped input triggers the fail-fast
error. -/
theorem C7_seasonal_index_spec_witness :
    bgcr_budyko.seasonal_index 1 6 (fun _ _ => (1 : ℝ)) =
      Except.error "month axis must be length 12 (years, 12, ...)" :=
  C7_seasonal_index_spec.1 1 6 (fun _ _ => (1 : ℝ)) (by decide)
